import Mathlib

/-!
Verification of the stablecoin-news curation service against its
specification.  The definitions below are a shallow embedding of the
code in `app/main.py` and `app/utils.py`: text is `List Char`,
Python floats coming from the sentiment scorer are `ℚ`, timestamps are
`Int` (seconds), Python `None` is `Option.none`, and the heterogeneous
value stored by the code in the `image_url` slot (a string, `None`, or
a list) is the inductive `PyImg`.
-/

/-- ASCII lower-casing of one character, as Python `str.lower` acts on
the ASCII range (all lexicon entries of the program are ASCII). -/
def pyLowerChar (c : Char) : Char :=
  if 'A' ≤ c ∧ c ≤ 'Z' then Char.ofNat (c.toNat + 32) else c

/-- Python `text.lower()` on ASCII text. -/
def pyLower (s : List Char) : List Char := s.map pyLowerChar

/-- The characters Python `str.strip()` removes by default. -/
def pyIsSpace (c : Char) : Bool :=
  c = ' ' ∨ c = '\t' ∨ c = '\n' ∨ c = '\x0d' ∨ c = '\x0b' ∨ c = '\x0c'

/-- Python `s.strip()`: drop leading and trailing whitespace. -/
def pyStrip (s : List Char) : List Char :=
  ((s.dropWhile pyIsSpace).reverse.dropWhile pyIsSpace).reverse

/-- Python substring test `pat in s` (contiguous substring). -/
def py_substring (pat : List Char) : List Char → Bool
  | [] => pat.isEmpty
  | c :: rest => pat.isPrefixOf (c :: rest) || py_substring pat rest

/-- Constant `STABLECOIN_KEYWORDS` from `app/main.py`. -/
def STABLECOIN_KEYWORDS : List (List Char) :=
  [ "stablecoin".toList, "usdc".toList, "usdt".toList, "tether".toList,
    "dai".toList, "circle".toList ]

/-- Constant `REGULATOR_POSITIVE_KEYWORDS` from `app/main.py` (the strong lexicon). -/
def REGULATOR_POSITIVE_KEYWORDS : List (List Char) :=
  [ "regulation".toList, "compliance".toList, "oversight".toList,
    "policy".toList, "risk management".toList, "aml".toList,
    "anti-money laundering".toList, "kyc".toList, "licence".toList,
    "license".toList, "central bank".toList, "cbdc".toList,
    "basel".toList, "governance".toList, "guidance".toList,
    "framework".toList, "supervision".toList, "report".toList,
    "consultation".toList, "pilot".toList, "sandbox".toList,
    "disclosure".toList, "transparency".toList, "prudential".toList,
    "enforcement".toList, "regulator".toList, "settlement".toList,
    "comptroller".toList, "treasury".toList ]

/-- Constant `GENERAL_POLICY_TERMS` from `app/main.py`. -/
def GENERAL_POLICY_TERMS : List (List Char) :=
  [ "policy".toList, "law".toList, "bill".toList, "legislation".toList,
    "standard".toList, "guideline".toList, "consultation".toList,
    "supervisory".toList, "oversight".toList, "risk".toList,
    "framework".toList, "white paper".toList, "report".toList,
    "discussion paper".toList, "consultation paper".toList,
    "governance".toList, "auditing".toList, "settlement".toList ]

/-- Constant `NEGATIVE_TERMS` from `app/main.py`. -/
def NEGATIVE_TERMS : List (List Char) :=
  [ "hack".toList, "scam".toList, "fraud".toList, "ban".toList,
    "collapse".toList, "lawsuit".toList, "pump".toList, "dump".toList,
    "moon".toList ]

/-- Predicate `includes_stablecoin_keyword` from `app/main.py`. -/
def includes_stablecoin_keyword (text : List Char) : Bool :=
  STABLECOIN_KEYWORDS.any (fun keyword => py_substring keyword (pyLower text))

/-- Predicate `includes_regulator_positive_keyword` from `app/main.py`. -/
def includes_regulator_positive_keyword (text : List Char) : Bool :=
  REGULATOR_POSITIVE_KEYWORDS.any (fun keyword => py_substring keyword (pyLower text))

/-- Predicate `has_regulator_context` from `app/main.py`: a strong-lexicon hit
suffices; otherwise at least two distinct general-policy terms must
occur as substrings. -/
def has_regulator_context (text : List Char) : Bool :=
  let lowered := pyLower text
  if includes_regulator_positive_keyword lowered then true
  else decide (2 ≤ (GENERAL_POLICY_TERMS.countP (fun term => py_substring term lowered)))

/-- Predicate `contains_negative_term` from `app/main.py`. -/
def contains_negative_term (text : List Char) : Bool :=
  NEGATIVE_TERMS.any (fun term => py_substring term (pyLower text))

/-- The value the Python code leaves in the `image_url` slot of an
article dictionary: `None`, a string, or (in one code path of
`parse_description`) a list of strings. -/
inductive PyImg where
  | pynone : PyImg
  | str (u : List Char) : PyImg
  | list (us : List (List Char)) : PyImg
deriving DecidableEq

/-- A parsed markup document, abstracted to the in-order sequence of
its text nodes and `img` elements (the `src` attribute possibly
absent) — the only features `parse_description` consumes from the
external `BeautifulSoup` parser. -/
inductive HtmlNode where
  | text (s : List Char) : HtmlNode
  | img (src : Option (List Char)) : HtmlNode
deriving DecidableEq

/-- Python `" ".join(strings)`. -/
def join_with_space : List (List Char) → List Char
  | [] => []
  | [s] => s
  | s :: t :: rest => s ++ ' ' :: join_with_space (t :: rest)

/-- Model of `soup.get_text(" ", strip=True)`: each text node stripped,
whitespace-only nodes skipped, the rest joined with one space. -/
def get_text (doc : List HtmlNode) : List Char :=
  join_with_space
    ((doc.filterMap fun n =>
        match n with
        | HtmlNode.text s => some (pyStrip s)
        | HtmlNode.img _ => none).filter (fun s => !s.isEmpty))

/-- The `src` attributes collected by `parse_description`: Python keeps
`img.get("src")` only when it is truthy (present and non-empty). -/
def img_srcs (doc : List HtmlNode) : List (List Char) :=
  doc.filterMap fun n =>
    match n with
    | HtmlNode.img (some s) => if s.isEmpty then none else some s
    | _ => none

/-- The body of `parse_description` in `app/utils.py` after the
`BeautifulSoup` call: clean text, and the first collected image URL
(Python `None` when there is none). -/
def parse_description_doc (doc : List HtmlNode) : List Char × PyImg :=
  ( get_text doc,
    match img_srcs doc with
    | [] => PyImg.pynone
    | u :: _ => PyImg.str u)

/-- Function `parse_description` from `app/utils.py`, over an already-parsed
document: on `None` input it returns the pair `("", [])` (an empty
list, not `None`) without consulting the parser at all. -/
def parse_description : Option (List HtmlNode) → List Char × PyImg
  | none => ([], PyImg.list [])
  | some doc => parse_description_doc doc

/-- Modelled from the spec: the external `html.parser` applied to
markup-free plain text yields the text itself as a single text node
(spec 4.1: parsing is tolerant of plain text with no tags); the empty
string parses to an empty document. -/
def parse_html_plain (s : List Char) : List HtmlNode :=
  if s.isEmpty then [] else [HtmlNode.text s]

/-- Function `parse_description` applied to a raw string (possibly `None`), for
markup-free input: the string is run through the modelled parser. -/
def parse_description_text (raw : Option (List Char)) : List Char × PyImg :=
  parse_description (raw.map parse_html_plain)

/-- Text with no markup characters: such input reaches the parser as a
single text node. -/
def no_markup (s : List Char) : Bool :=
  s.all (fun c => !(c = '<' ∨ c = '>' ∨ c = '&'))

/-- One `<item>` of a parsed feed, as read by the loop body of
`fetch_and_filter_articles` in `app/main.py`: every field may be
absent; the namespaced `media:content` element is `none` when absent
and `some urlAttr` when present, where `urlAttr` is its optional `url`
attribute. -/
structure RssItem where
  title : Option (List Char)
  link : Option (List Char)
  description : Option (List HtmlNode)
  pubDate : Option (List Char)
  media_content : Option (Option (List Char))
deriving DecidableEq

/-- The article dictionary built by `fetch_and_filter_articles` (and
held by `curated_articles` / MongoDB).  `fetched_at` is optional
because `update_articles` defends against a missing key with
`article.get("fetched_at", ...)`. -/
structure PyArticle where
  title : List Char
  summary : List Char
  url : Option (List Char)
  image_url : PyImg
  source : List Char
  published : Option (List Char)
  sentiment : ℚ
  fetched_at : Option Int
deriving DecidableEq

/-- Combined filter text `content_for_filter = f"{title} {summary}"` from `app/main.py`. -/
def item_content (item : RssItem) : List Char :=
  (item.title.getD []) ++ ' ' :: (parse_description item.description).1

/-- The body of the per-item loop of `fetch_and_filter_articles` in
`app/main.py`, lines 166-212: state is the pair
(articles so far, lower-cased titles accepted so far).  The sentiment
scorer (`TextBlob`, an external component, spec 4.3) is the parameter
`sentiment_of`; `now` is the current time in seconds. -/
def process_item (sentiment_of : List Char → ℚ) (now : Int) (source : List Char)
    (st : List PyArticle × List (List Char)) (item : RssItem) :
    List PyArticle × List (List Char) :=
  match item.title with
  | none => st
  | some t =>
    if t.isEmpty ∨ pyLower t ∈ st.2 then st
    else
      let summary := (parse_description item.description).1
      let image_url :=
        match item.media_content with
        | none => (parse_description item.description).2
        | some none => PyImg.pynone
        | some (some u) => PyImg.str u
      let content := item_content item
      if includes_stablecoin_keyword content = false then st
      else
        let s := sentiment_of content
        if s < mkRat 1 10 then st
        else if contains_negative_term content = true ∧ s < mkRat 3 10 then st
        else if has_regulator_context content = false then st
        else
          (st.1 ++ [{ title := t, summary := summary, url := item.link,
                      image_url := image_url, source := source,
                      published := item.pubDate, sentiment := s,
                      fetched_at := some now }],
           st.2 ++ [pyLower t])

/-- The inner `for item in items` loop over one source. -/
def process_items (sentiment_of : List Char → ℚ) (now : Int) (source : List Char)
    (items : List RssItem) (st : List PyArticle × List (List Char)) :
    List PyArticle × List (List Char) :=
  items.foldl (process_item sentiment_of now source) st

/-- The `for source, url in RSS_FEEDS.items()` loop of
`fetch_and_filter_articles`.  Each source comes with the outcome of
`requests.get` / `raise_for_status` / `ET.fromstring`: either the
parsed items or a raised exception.  The code has no handler, so an
exception propagates and the whole run aborts (`Except.error`),
discarding the state accumulated from earlier sources. -/
def fetch_and_filter_core (sentiment_of : List Char → ℚ) (now : Int) :
    List (List Char × Except (List Char) (List RssItem)) →
    List PyArticle × List (List Char) →
    Except (List Char) (List PyArticle × List (List Char))
  | [], st => Except.ok st
  | (_, Except.error e) :: _, _ => Except.error e
  | (src, Except.ok items) :: rest, st =>
    fetch_and_filter_core sentiment_of now rest (process_items sentiment_of now src items st)

/-- Function `fetch_and_filter_articles` from `app/main.py`: run the per-source
loop starting from an empty article list and an empty `seen_titles`
set, and return the collected articles. -/
def fetch_and_filter_articles (sentiment_of : List Char → ℚ) (now : Int)
    (feeds : List (List Char × Except (List Char) (List RssItem))) :
    Except (List Char) (List PyArticle) :=
  (fetch_and_filter_core sentiment_of now feeds ([], [])).map Prod.fst

deriving instance DecidableEq for Except

/-- Constant `CACHE_WINDOW_HOURS` from `app/main.py`. -/
def CACHE_WINDOW_HOURS : Int := 48

/-- One `mongo_db_client.find_one_and_update({title, source}, {$set: article},
upsert=True)` call: replace the first document with the same title and
source, or append the article when no such document exists. -/
def mongo_upsert : List PyArticle → PyArticle → List PyArticle
  | [], a => [a]
  | d :: ds, a =>
    if d.title = a.title ∧ d.source = a.source then a :: ds
    else d :: mongo_upsert ds a

/-- Function `update_articles` from `app/main.py`, lines 216-234, with the fetch
result passed in: under the lock it rewrites `curated_articles` keeping
only articles whose `fetched_at` (defaulting to the current time when
the key is missing) is at least `now - 48h`; it then upserts every new
article into MongoDB.  New articles are never appended to the retained
in-memory list. -/
def update_articles (now : Int) (curated_articles : List PyArticle)
    (new_articles : List PyArticle) (mongo : List PyArticle) :
    List PyArticle × List PyArticle :=
  ( curated_articles.filter
      (fun a => decide (now - CACHE_WINDOW_HOURS * 3600 ≤ a.fetched_at.getD now)),
    new_articles.foldl mongo_upsert mongo )

/-- Two texts that differ only in the case of their letters:
pointwise, lower-casing gives the same character. -/
def case_variant : List Char → List Char → Bool
  | [], [] => true
  | a :: as, b :: bs => (pyLowerChar a == pyLowerChar b) && case_variant as bs
  | _, _ => false

/-- Concrete retained article whose `fetched_at` is exactly at the
48-hour cutoff for `now = 1000000` (1000000 - 48*3600 = 827200). -/
def c10_boundary_article : PyArticle :=
  { title := "Boundary case".toList, summary := [], url := none,
    image_url := PyImg.pynone, source := "S".toList, published := none,
    sentiment := mkRat 1 2, fetched_at := some 827200 }

/-- Concrete retained article with no `fetched_at` key. -/
def c10_no_timestamp_article : PyArticle :=
  { title := "No timestamp".toList, summary := [], url := none,
    image_url := PyImg.pynone, source := "S".toList, published := none,
    sentiment := mkRat 1 2, fetched_at := none }

/-- Concrete retained article fetched 50 hours before `now = 720000`
(720000 - 50*3600 = 540000, older than the 48-hour window). -/
def c1_old_article : PyArticle :=
  { title := "Old stablecoin ruling".toList, summary := [], url := none,
    image_url := PyImg.pynone, source := "S".toList, published := none,
    sentiment := mkRat 1 2, fetched_at := some 540000 }

/-- Concrete newly curated article, fetched at `now = 720000` itself. -/
def c1_new_article : PyArticle :=
  { title := "Fresh stablecoin ruling".toList, summary := [], url := none,
    image_url := PyImg.pynone, source := "S".toList, published := none,
    sentiment := mkRat 1 2, fetched_at := some 720000 }

/-- Concrete entry whose combined text contains the negative term
"scam" together with a stablecoin keyword and regulator context. -/
def c4_item : RssItem :=
  { title := some "USDC regulation news".toList, link := none,
    description := some [HtmlNode.text "this is a scam".toList],
    pubDate := none, media_content := none }

/-- The article `c4_item` produces when the sentiment scorer returns
0.35. -/
def c4_accepted_article : PyArticle :=
  { title := "USDC regulation news".toList, summary := "this is a scam".toList,
    url := none, image_url := PyImg.pynone, source := "S".toList,
    published := none, sentiment := mkRat 7 20, fetched_at := some 0 }

/-- Concrete feed item carrying a `media:content` element that has no
`url` attribute, while its description holds an `<img>` with a `src`. -/
def c7_item : RssItem :=
  { title := some "Stablecoin News".toList, link := none,
    description := some [HtmlNode.text "usdc regulation update".toList,
      HtmlNode.img (some "http://img.example/pic.png".toList)],
    pubDate := none, media_content := some none }

/-- The article `c7_item` produces: its `image_url` is `None`, not the
normalizer-extracted URL. -/
def c7_article : PyArticle :=
  { title := "Stablecoin News".toList,
    summary := "usdc regulation update".toList,
    url := none, image_url := PyImg.pynone, source := "S".toList,
    published := none, sentiment := mkRat 2 5, fetched_at := some 0 }

/-- Concrete entry titled "Fed Issues Guidance" that passes every
filter. -/
def c5_item1 : RssItem :=
  { title := some "Fed Issues Guidance".toList, link := none,
    description := some [HtmlNode.text "stablecoin regulation update".toList],
    pubDate := none, media_content := none }

/-- The same entry with the title in lower case, appearing later in the
same run. -/
def c5_item2 : RssItem :=
  { title := some "fed issues guidance".toList, link := none,
    description := some [HtmlNode.text "stablecoin regulation update".toList],
    pubDate := none, media_content := none }

/-- The single article retained from the pair `c5_item1`, `c5_item2`. -/
def c5_article : PyArticle :=
  { title := "Fed Issues Guidance".toList,
    summary := "stablecoin regulation update".toList,
    url := none, image_url := PyImg.pynone, source := "S".toList,
    published := none, sentiment := mkRat 2 5, fetched_at := some 0 }

/-- Concrete passing entry served by the second source in the C2
scenario. -/
def c2_item : RssItem :=
  { title := some "Stablecoin Oversight Report".toList, link := none,
    description := some
      [HtmlNode.text "usdc compliance and governance news".toList],
    pubDate := none, media_content := none }

/-- The article `c2_item` yields when its source is fetched alone. -/
def c2_article : PyArticle :=
  { title := "Stablecoin Oversight Report".toList,
    summary := "usdc compliance and governance news".toList,
    url := none, image_url := PyImg.pynone, source := "B".toList,
    published := none, sentiment := mkRat 2 5, fetched_at := some 0 }

theorem dropWhile_self_dropWhile (p : Char → Bool) (l : List Char) :
    (l.dropWhile p).dropWhile p = l.dropWhile p := by
  induction l with
  | nil => rfl
  | cons a l ih =>
    cases hp : p a with
    | true => rw [List.dropWhile_cons_of_pos hp]; exact ih
    | false =>
      rw [List.dropWhile_cons_of_neg (by simp [hp]),
        List.dropWhile_cons_of_neg (by simp [hp])]

theorem dropWhile_eq_self_of_prefix (p : Char → Bool) {l m : List Char}
    (hm : m.dropWhile p = m) (hp : l <+: m) : l.dropWhile p = l := by
  cases l with
  | nil => rfl
  | cons a l =>
    obtain ⟨r, hr⟩ := hp
    have ha : p a = false := by
      by_contra hcon
      have ha' : p a = true := by simpa using hcon
      rw [← hr] at hm
      simp only [List.cons_append] at hm
      rw [List.dropWhile_cons_of_pos ha'] at hm
      have hle := (show (l ++ r).dropWhile p <:+ l ++ r from
        List.dropWhile_suffix p).length_le
      rw [hm] at hle
      simp at hle
    rw [List.dropWhile_cons_of_neg (by simp [ha])]

theorem pyStrip_eq_self {l : List Char} (h1 : l.dropWhile pyIsSpace = l)
    (h2 : l.reverse.dropWhile pyIsSpace = l.reverse) : pyStrip l = l := by
  unfold pyStrip
  rw [h1, h2, List.reverse_reverse]

theorem pyStrip_idem (s : List Char) : pyStrip (pyStrip s) = pyStrip s := by
  apply pyStrip_eq_self
  · apply dropWhile_eq_self_of_prefix pyIsSpace (dropWhile_self_dropWhile pyIsSpace s)
    unfold pyStrip
    simpa using List.reverse_prefix.mpr
      (show (s.dropWhile pyIsSpace).reverse.dropWhile pyIsSpace <:+
          (s.dropWhile pyIsSpace).reverse from List.dropWhile_suffix pyIsSpace)
  · unfold pyStrip
    rw [List.reverse_reverse]
    exact dropWhile_self_dropWhile pyIsSpace _

theorem clean_text_plain (x : List Char) :
    (parse_description_text (some x)).1 = pyStrip x := by
  cases x with
  | nil => rfl
  | cons a l =>
    show get_text [HtmlNode.text (a :: l)] = pyStrip (a :: l)
    unfold get_text
    simp only [List.filterMap_cons, List.filterMap_nil]
    cases hs : (pyStrip (a :: l)).isEmpty with
    | true =>
      have hnil : pyStrip (a :: l) = [] := by simpa using hs
      rw [hnil]; rfl
    | false => simp [List.filter_cons, hs, join_with_space]

/-- C3 (counterexample): the text "policy" contains the general-policy
term "policy" but not "risk", yet `has_regulator_context` returns true
on it (because "policy" is also a strong-lexicon keyword), refuting
"returns false for text containing only one of them". -/
theorem c3_single_term_counterexample :
    py_substring "policy".toList (pyLower "policy".toList) = true ∧
    py_substring "risk".toList (pyLower "policy".toList) = false ∧
    has_regulator_context "policy".toList = true := by decide

/-- C3 (amended): `has_regulator_context` is true for "central bank"
alone; true for text containing both "policy" and "risk"; true for two
general-policy terms with no strong keyword ("risk law"); false for
text containing only "risk"; but true for text containing only
"policy", since "policy" is also a strong-lexicon entry. -/
theorem c3_policy_context :
    has_regulator_context "central bank".toList = true ∧
    has_regulator_context "policy risk".toList = true ∧
    has_regulator_context "risk law".toList = true ∧
    has_regulator_context "risk".toList = false ∧
    has_regulator_context "policy".toList = true := by decide

/-- C6: `parse_description` on absent (`None`) input returns the pair
`("", [])` — an empty list in the image slot — while on empty-string
input it returns `("", None)`; the two no-image markers differ, so the
claimed uniform `("", none)` result fails on the `None` branch. -/
theorem c6_absent_empty_normalize :
    parse_description_text none = ([], PyImg.list []) ∧
    parse_description_text (some []) = ([], PyImg.pynone) ∧
    PyImg.list [] ≠ PyImg.pynone := by decide

/-- C8: the normalizer is idempotent on the clean-text component for
markup-free plain text: re-normalizing the extracted clean text leaves
it unchanged. -/
theorem c8_normalizer_idempotent (x : List Char) (h : no_markup x = true) :
    (parse_description_text (some (parse_description_text (some x)).1)).1 =
      (parse_description_text (some x)).1 := by
  rw [clean_text_plain x, clean_text_plain (pyStrip x), pyStrip_idem]

/-- C8 witness: idempotence at the concrete markup-free input
`"  hello  world "`. -/
theorem c8_witness :
    no_markup "  hello  world ".toList = true ∧
    (parse_description_text
        (some (parse_description_text (some "  hello  world ".toList)).1)).1 =
      (parse_description_text (some "  hello  world ".toList)).1 :=
  ⟨by decide, c8_normalizer_idempotent "  hello  world ".toList (by decide)⟩

theorem pyLower_eq_of_case_variant :
    ∀ {t t' : List Char}, case_variant t t' = true → pyLower t = pyLower t' := by
  intro t
  induction t with
  | nil =>
    intro t' h
    cases t' with
    | nil => rfl
    | cons b bs => simp [case_variant] at h
  | cons a as ih =>
    intro t' h
    cases t' with
    | nil => simp [case_variant] at h
    | cons b bs =>
      simp only [case_variant, Bool.and_eq_true, beq_iff_eq] at h
      have h2 := ih h.2
      simp only [pyLower, List.map_cons] at h2 ⊢
      rw [h.1, h2]

/-- C9: each relevance predicate is invariant under changing only the
case of letters in its input text, since each lower-cases its input
before matching against the all-lower-case lexicons. -/
theorem c9_case_insensitive (t t' : List Char) (h : case_variant t t' = true) :
    includes_stablecoin_keyword t = includes_stablecoin_keyword t' ∧
    includes_regulator_positive_keyword t = includes_regulator_positive_keyword t' ∧
    has_regulator_context t = has_regulator_context t' ∧
    contains_negative_term t = contains_negative_term t' := by
  have key := pyLower_eq_of_case_variant h
  unfold includes_stablecoin_keyword includes_regulator_positive_keyword
    has_regulator_context contains_negative_term
  rw [key]
  exact ⟨rfl, rfl, rfl, rfl⟩

/-- C9 witness: case invariance at the concrete pair
`"USDC Policy Risk"` / `"usdc policy risk"`. -/
theorem c9_witness :
    case_variant "USDC Policy Risk".toList "usdc policy risk".toList = true ∧
    (includes_stablecoin_keyword "USDC Policy Risk".toList =
        includes_stablecoin_keyword "usdc policy risk".toList ∧
      includes_regulator_positive_keyword "USDC Policy Risk".toList =
        includes_regulator_positive_keyword "usdc policy risk".toList ∧
      has_regulator_context "USDC Policy Risk".toList =
        has_regulator_context "usdc policy risk".toList ∧
      contains_negative_term "USDC Policy Risk".toList =
        contains_negative_term "usdc policy risk".toList) :=
  ⟨by decide, c9_case_insensitive _ _ (by decide)⟩

/-- C10: in `update_articles`, a held article survives eviction iff its
`fetched_at` (defaulting to the current time when absent) is at least
`now` minus the 48-hour window; in particular an article whose
`fetched_at` equals the cutoff exactly is retained, and an article with
no `fetched_at` is never evicted. -/
theorem c10_eviction_boundary (now : Int)
    (store new_articles mongo : List PyArticle) (a : PyArticle) (h : a ∈ store) :
    (a ∈ (update_articles now store new_articles mongo).1 ↔
      now - CACHE_WINDOW_HOURS * 3600 ≤ a.fetched_at.getD now) ∧
    (a.fetched_at = none → a ∈ (update_articles now store new_articles mongo).1) := by
  constructor
  · simp [update_articles, List.mem_filter, h]
  · intro hn
    simp only [update_articles, List.mem_filter]
    refine ⟨h, ?_⟩
    simp only [hn, Option.getD_none, CACHE_WINDOW_HOURS, decide_eq_true_eq]
    omega

/-- C10 witness: with `now = 1000000`, the article at exactly the
cutoff and the article without a timestamp both survive the merge. -/
theorem c10_witness :
    c10_boundary_article ∈
      (update_articles 1000000 [c10_boundary_article, c10_no_timestamp_article]
        [] []).1 ∧
    c10_no_timestamp_article ∈
      (update_articles 1000000 [c10_boundary_article, c10_no_timestamp_article]
        [] []).1 :=
  ⟨(c10_eviction_boundary 1000000 _ [] [] c10_boundary_article
      (by decide)).1.mpr (by decide),
   (c10_eviction_boundary 1000000 _ [] [] c10_no_timestamp_article
      (by decide)).2 rfl⟩

/-- C1: `update_articles` does evict everything older than the window
even with zero new articles (first conjunct, as the claim states), but
it never appends a newly curated article to the retained in-memory
list: the new article is only upserted into the persisted collection,
and the retained list stays empty (remaining conjuncts, refuting the
claimed append). -/
theorem c1_merge_never_appends :
    update_articles 720000 [c1_old_article] [] [] = ([], []) ∧
    update_articles 720000 [] [c1_new_article] [] = ([], [c1_new_article]) ∧
    c1_new_article ∉ (update_articles 720000 [] [c1_new_article] []).1 := by
  decide

/-- C4: an entry is rejected (the state is unchanged) whenever its
sentiment is below 0.1, and an entry whose combined text contains a
negative term is also rejected whenever its sentiment is below 0.3. -/
theorem c4_sentiment_thresholds (sentiment_of : List Char → ℚ) (now : Int)
    (source : List Char) (st : List PyArticle × List (List Char)) (item : RssItem) :
    (sentiment_of (item_content item) < mkRat 1 10 →
      process_item sentiment_of now source st item = st) ∧
    (contains_negative_term (item_content item) = true →
      sentiment_of (item_content item) < mkRat 3 10 →
      process_item sentiment_of now source st item = st) := by
  unfold process_item
  cases htitle : item.title with
  | none => exact ⟨fun _ => rfl, fun _ _ => rfl⟩
  | some t =>
    constructor
    · intro hs
      simp [hs]
    · intro hneg hs
      simp [hneg, hs]

/-- C4 witness: the scam-mentioning entry is rejected at sentiment 0.2
(by the theorem) and accepted at sentiment 0.35, other filters
passing. -/
theorem c4_witness :
    contains_negative_term (item_content c4_item) = true ∧
    process_item (fun _ => mkRat 1 5) 0 "S".toList ([], []) c4_item = ([], []) ∧
    process_item (fun _ => mkRat 7 20) 0 "S".toList ([], []) c4_item =
      ([c4_accepted_article], [pyLower "USDC regulation news".toList]) :=
  ⟨by decide,
   (c4_sentiment_thresholds (fun _ => mkRat 1 5) 0 "S".toList ([], []) c4_item).2
     (by decide) (by decide),
   by decide⟩

/-- C7 (amended): every article emitted by the per-item step resolves
its image as follows — when the media element is present, its `url`
attribute is taken even if the attribute is missing (giving `None`);
only when the media element is absent is the normalizer-extracted value
kept. -/
theorem c7_media_image_resolution (sentiment_of : List Char → ℚ) (now : Int)
    (source : List Char) (st : List PyArticle × List (List Char)) (item : RssItem) :
    ∀ a ∈ (process_item sentiment_of now source st item).1,
      a ∈ st.1 ∨
        a.image_url = (match item.media_content with
          | none => (parse_description item.description).2
          | some none => PyImg.pynone
          | some (some u) => PyImg.str u) := by
  unfold process_item
  cases htitle : item.title with
  | none => exact fun a ha => Or.inl ha
  | some t =>
    intro a ha
    dsimp only [] at ha
    by_cases h1 : (t.isEmpty = true ∨ pyLower t ∈ st.2)
    · rw [if_pos h1] at ha; exact Or.inl ha
    · rw [if_neg h1] at ha
      by_cases h2 : includes_stablecoin_keyword (item_content item) = false
      · rw [if_pos h2] at ha; exact Or.inl ha
      · rw [if_neg h2] at ha
        by_cases h3 : sentiment_of (item_content item) < mkRat 1 10
        · rw [if_pos h3] at ha; exact Or.inl ha
        · rw [if_neg h3] at ha
          by_cases h4 : contains_negative_term (item_content item) = true ∧
            sentiment_of (item_content item) < mkRat 3 10
          · rw [if_pos h4] at ha; exact Or.inl ha
          · rw [if_neg h4] at ha
            by_cases h5 : has_regulator_context (item_content item) = false
            · rw [if_pos h5] at ha; exact Or.inl ha
            · rw [if_neg h5] at ha
              rcases List.mem_append.mp ha with hl | hr
              · exact Or.inl hl
              · right
                rw [List.mem_singleton.mp hr]

/-- C7 (counterexample): a feed item carrying a media element without a
`url` attribute, whose description contains an image URL, is emitted
with `image_url = None`: the element overrides the normalizer URL even
though the element has no URL, refuting "the normalizer-extracted URL
otherwise". -/
theorem c7_counterexample :
    fetch_and_filter_articles (fun _ => mkRat 2 5) 0
        [( "S".toList, Except.ok [c7_item])] = Except.ok [c7_article] ∧
    (parse_description c7_item.description).2 =
      PyImg.str "http://img.example/pic.png".toList ∧
    c7_article.image_url = PyImg.pynone ∧
    PyImg.pynone ≠ PyImg.str "http://img.example/pic.png".toList := by decide

/-- C7 witness: the amended resolution rule at the concrete item
`c7_item` (media element present, no `url` attribute). -/
theorem c7_witness :
    c7_article ∈ (process_item (fun _ => mkRat 2 5) 0 "S".toList ([], []) c7_item).1 ∧
    (c7_article ∈ ([] : List PyArticle) ∨ c7_article.image_url = PyImg.pynone) :=
  ⟨by decide,
   c7_media_image_resolution (fun _ => mkRat 2 5) 0 "S".toList ([], []) c7_item
     c7_article (by decide)⟩

theorem process_item_titles_inv (sentiment_of : List Char → ℚ) (now : Int)
    (source : List Char) (st : List PyArticle × List (List Char)) (item : RssItem)
    (h1 : ∀ a ∈ st.1, a.title ≠ [])
    (h2 : (st.1.map (fun a => pyLower a.title)).Nodup)
    (h3 : ∀ a ∈ st.1, pyLower a.title ∈ st.2) :
    (∀ a ∈ (process_item sentiment_of now source st item).1, a.title ≠ []) ∧
    ((process_item sentiment_of now source st item).1.map
      (fun a => pyLower a.title)).Nodup ∧
    (∀ a ∈ (process_item sentiment_of now source st item).1,
      pyLower a.title ∈ (process_item sentiment_of now source st item).2) := by
  unfold process_item
  cases htitle : item.title with
  | none => exact ⟨h1, h2, h3⟩
  | some t =>
    dsimp only []
    by_cases hc1 : (t.isEmpty = true ∨ pyLower t ∈ st.2)
    · rw [if_pos hc1]; exact ⟨h1, h2, h3⟩
    · rw [if_neg hc1]
      push_neg at hc1
      obtain ⟨hte, hseen⟩ := hc1
      by_cases hc2 : includes_stablecoin_keyword (item_content item) = false
      · rw [if_pos hc2]; exact ⟨h1, h2, h3⟩
      · rw [if_neg hc2]
        by_cases hc3 : sentiment_of (item_content item) < mkRat 1 10
        · rw [if_pos hc3]; exact ⟨h1, h2, h3⟩
        · rw [if_neg hc3]
          by_cases hc4 : contains_negative_term (item_content item) = true ∧
            sentiment_of (item_content item) < mkRat 3 10
          · rw [if_pos hc4]; exact ⟨h1, h2, h3⟩
          · rw [if_neg hc4]
            by_cases hc5 : has_regulator_context (item_content item) = false
            · rw [if_pos hc5]; exact ⟨h1, h2, h3⟩
            · rw [if_neg hc5]
              refine ⟨?_, ?_, ?_⟩
              · intro a ha
                rcases List.mem_append.mp ha with hl | hr
                · exact h1 a hl
                · rw [List.mem_singleton.mp hr]
                  intro hnil
                  exact hte (by rw [show t = ([] : List Char) from hnil]; rfl)
              · rw [List.map_append, List.nodup_append]
                refine ⟨h2, List.nodup_singleton _, ?_⟩
                intro x hx hx2
                rcases List.mem_map.mp hx with ⟨b, hb, rfl⟩
                have hmem := h3 b hb
                rw [List.mem_singleton.mp hx2] at hmem
                exact hseen hmem
              · intro a ha
                rcases List.mem_append.mp ha with hl | hr
                · exact List.mem_append.mpr (Or.inl (h3 a hl))
                · rw [List.mem_singleton.mp hr]
                  exact List.mem_append.mpr (Or.inr (List.mem_singleton.mpr rfl))

theorem process_items_titles_inv (sentiment_of : List Char → ℚ) (now : Int)
    (source : List Char) (items : List RssItem) :
    ∀ st : List PyArticle × List (List Char),
      ((∀ a ∈ st.1, a.title ≠ []) ∧
        (st.1.map (fun a => pyLower a.title)).Nodup ∧
        (∀ a ∈ st.1, pyLower a.title ∈ st.2)) →
      ((∀ a ∈ (process_items sentiment_of now source items st).1, a.title ≠ []) ∧
        ((process_items sentiment_of now source items st).1.map
          (fun a => pyLower a.title)).Nodup ∧
        (∀ a ∈ (process_items sentiment_of now source items st).1,
          pyLower a.title ∈ (process_items sentiment_of now source items st).2)) := by
  induction items with
  | nil => exact fun st h => h
  | cons i rest ih =>
    intro st h
    exact ih (process_item sentiment_of now source st i)
      (process_item_titles_inv sentiment_of now source st i h.1 h.2.1 h.2.2)

theorem core_titles_inv (sentiment_of : List Char → ℚ) (now : Int)
    (feeds : List (List Char × Except (List Char) (List RssItem))) :
    ∀ (st res : List PyArticle × List (List Char)),
      fetch_and_filter_core sentiment_of now feeds st = Except.ok res →
      ((∀ a ∈ st.1, a.title ≠ []) ∧
        (st.1.map (fun a => pyLower a.title)).Nodup ∧
        (∀ a ∈ st.1, pyLower a.title ∈ st.2)) →
      ((∀ a ∈ res.1, a.title ≠ []) ∧
        (res.1.map (fun a => pyLower a.title)).Nodup ∧
        (∀ a ∈ res.1, pyLower a.title ∈ res.2)) := by
  induction feeds with
  | nil =>
    intro st res h hinv
    cases h
    exact hinv
  | cons p rest ih =>
    intro st res h hinv
    rcases p with ⟨src, r⟩
    cases r with
    | error e => exact absurd h (by simp [fetch_and_filter_core])
    | ok items =>
      exact ih (process_items sentiment_of now src items st) res h
        (process_items_titles_inv sentiment_of now src items st hinv)

/-- C5: any successful run emits only articles with non-empty titles
and pairwise distinct lower-cased titles (run-scoped, case-insensitive,
title-only dedup); moreover the per-item step rejects outright an entry
whose lower-cased title is already in the seen set, or whose title is
missing or empty. -/
theorem c5_title_dedup (sentiment_of : List Char → ℚ) (now : Int)
    (feeds : List (List Char × Except (List Char) (List RssItem)))
    (arts : List PyArticle)
    (h : fetch_and_filter_articles sentiment_of now feeds = Except.ok arts) :
    (∀ a ∈ arts, a.title ≠ []) ∧
    (arts.map (fun a => pyLower a.title)).Nodup ∧
    (∀ (source : List Char) st item (t : List Char), item.title = some t →
      pyLower t ∈ st.2 → process_item sentiment_of now source st item = st) ∧
    (∀ (source : List Char) st item,
      (item.title = none ∨ item.title = some ([] : List Char)) →
      process_item sentiment_of now source st item = st) := by
  have hrej1 : ∀ (source : List Char) st item (t : List Char), item.title = some t →
      pyLower t ∈ st.2 → process_item sentiment_of now source st item = st := by
    intro source st item t ht hseen
    unfold process_item
    rw [ht]
    dsimp only []
    rw [if_pos (Or.inr hseen)]
  have hrej2 : ∀ (source : List Char) st item,
      (item.title = none ∨ item.title = some ([] : List Char)) →
      process_item sentiment_of now source st item = st := by
    intro source st item hcase
    unfold process_item
    rcases hcase with hn | he
    · rw [hn]
    · rw [he]
      dsimp only []
      rw [if_pos (Or.inl (show List.isEmpty ([] : List Char) = true from rfl))]
  unfold fetch_and_filter_articles at h
  cases hcore : fetch_and_filter_core sentiment_of now feeds ([], []) with
  | error e =>
    rw [hcore] at h
    exact absurd h (by simp [Except.map])
  | ok res =>
    rw [hcore] at h
    simp only [Except.map, Except.ok.injEq] at h
    have hinv := core_titles_inv sentiment_of now feeds ([], []) res hcore
      (by refine ⟨?_, ?_, ?_⟩ <;> simp)
    rw [← h]
    exact ⟨hinv.1, hinv.2.1, hrej1, hrej2⟩

/-- C5 witness: in a run containing "Fed Issues Guidance" and then
"fed issues guidance", only the first is retained, and the retained
titles are non-empty and case-insensitively distinct. -/
theorem c5_witness :
    fetch_and_filter_articles (fun _ => mkRat 2 5) 0
        [( "S".toList, Except.ok [c5_item1, c5_item2])] =
      Except.ok [c5_article] ∧
    (∀ a ∈ [c5_article], a.title ≠ []) ∧
    ([c5_article].map (fun a => pyLower a.title)).Nodup := by
  have h : fetch_and_filter_articles (fun _ => mkRat 2 5) 0
      [( "S".toList, Except.ok [c5_item1, c5_item2])] = Except.ok [c5_article] := by
    decide
  exact ⟨h, (c5_title_dedup _ _ _ _ h).1, (c5_title_dedup _ _ _ _ h).2.1⟩

theorem core_all_ok_then_error (sentiment_of : List Char → ℚ) (now : Int)
    (src e : List Char)
    (post : List (List Char × Except (List Char) (List RssItem))) :
    ∀ (pre : List (List Char × List RssItem))
      (st : List PyArticle × List (List Char)),
      fetch_and_filter_core sentiment_of now
        (pre.map (fun q => (q.1, Except.ok q.2)) ++ (src, Except.error e) :: post)
        st = Except.error e := by
  intro pre
  induction pre with
  | nil => exact fun st => rfl
  | cons q rest ih =>
    intro st
    rcases q with ⟨s0, items⟩
    simp only [List.map_cons, List.cons_append]
    exact ih (process_items sentiment_of now s0 items st)

/-- C2 (amended): a transport or parse failure while retrieving a
configured source is not caught: however many sources fetched
successfully before it, the exception propagates and the whole run
aborts with that error, returning no articles from any source. -/
theorem c2_source_failure_aborts_run (sentiment_of : List Char → ℚ) (now : Int)
    (pre : List (List Char × List RssItem)) (src e : List Char)
    (post : List (List Char × Except (List Char) (List RssItem))) :
    fetch_and_filter_articles sentiment_of now
      (pre.map (fun q => (q.1, Except.ok q.2)) ++ (src, Except.error e) :: post) =
    Except.error e := by
  unfold fetch_and_filter_articles
  rw [core_all_ok_then_error]
  rfl

/-- C2 (counterexample): when source "A" fails and source "B" would
contribute an article, the run returns the error and none of the B
articles — although B alone yields its article — refuting "entries from
the remaining sources are still fetched, filtered, and returned". -/
theorem c2_counterexample :
    fetch_and_filter_articles (fun _ => mkRat 2 5) 0
        [( "A".toList, Except.error "connection failed".toList),
         ( "B".toList, Except.ok [c2_item])] =
      Except.error "connection failed".toList ∧
    fetch_and_filter_articles (fun _ => mkRat 2 5) 0
        [( "B".toList, Except.ok [c2_item])] = Except.ok [c2_article] := by
  decide
